import Mathlib

/-!
Verification of the synchronization core of `network_sim` (src/sim.rs).

Shallow embedding conventions:
* Rust `std::time::Duration` values (non-negative, nanosecond-resolution) and
  `f32`/`f64` seconds are both modelled as `ℚ`.  Float rounding is idealized as
  exact rational arithmetic; subtraction of `Duration`s, which panics on
  underflow in Rust, is modelled with an explicit check (`checkedSub`, or an
  `Except`/`Option` result where the source can panic).
* Integer casts that can wrap in Rust (`as i32`, `as u32`, `as u64`) are
  modelled by explicit modular-reduction functions on `ℤ`.
* Panics are modelled as `Except PanicErr` / `Option` failure values.
-/

set_option linter.unusedVariables false

/-- A `u128 as u32`-style cast (also `iN as u32` for the bit pattern): reduce
modulo `2 ^ 32` into `[0, 2^32)`. -/
def wrapU32 (n : ℤ) : ℤ := n % (2 ^ 32)

/-- A cast into `u64`: reduce modulo `2 ^ 64` into `[0, 2^64)`. -/
def wrapU64 (n : ℤ) : ℤ := n % (2 ^ 64)

/-- A cast into `i32`: reduce modulo `2 ^ 32` into `[-2^31, 2^31)`. -/
def wrapI32 (n : ℤ) : ℤ := (n + 2 ^ 31) % (2 ^ 32) - 2 ^ 31

/-- `Duration::checked_sub`: `some (a - b)` when `b ≤ a`, otherwise `none`. -/
def checkedSub (a b : ℚ) : Option ℚ := if b ≤ a then some (a - b) else none

/-- The panics reachable from the embedded code paths. -/
inductive PanicErr where
  /-- `expect("Time is before LocalClock time")` in `LocalClock::tick`. -/
  | clockUnderflow
  /-- `Duration::mul_f32` panics when the scaled duration is negative. -/
  | mulNeg
  /-- `Option::unwrap` on an absent `time_per_frame`. -/
  | unwrapNone
  /-- Plain `Duration` subtraction panicking on overflow. -/
  | durUnderflow
  deriving DecidableEq, Repr

/-- `amethyst::core::Time`: the ambient local time source handed to `tick`,
`recv_sync` and `update_render` (only `absolute_time` and `delta_time` are
read by the embedded code). -/
structure Time where
  absolute_time : ℚ
  delta_time : ℚ
  deriving DecidableEq, Repr

/-- `LocalClock` (src/sim.rs: struct LocalClock): reconstruction of a remote
timeline from the local time source.  The two signed offset parts are kept
exactly as in the source (`i64` seconds plus `i32` "nanos"); durations are
rational seconds. -/
structure LocalClock where
  clock_offset_secs : ℤ
  clock_offset_nanos : ℤ
  delta_time : ℚ
  frame_number : ℕ
  frames_since_tick : ℕ
  absolute_time : ℚ
  time_scale : Option ℚ
  time_per_frame : Option ℚ
  interpolation_alpha : ℚ
  deriving DecidableEq, Repr

/-- `LocalClock::default()`. -/
def LocalClock.default : LocalClock where
  clock_offset_secs := 0
  clock_offset_nanos := 0
  delta_time := 0
  frame_number := 0
  frames_since_tick := 0
  absolute_time := 0
  time_scale := none
  time_per_frame := none
  interpolation_alpha := 0

/-- `Duration::new((-clock_offset_secs) as u64, (-clock_offset_nanos) as u32)`:
the magnitude subtracted from local time when the stored offset is treated as
negative (used both by `tick` and by `update_render`'s sample-time
computation).  `Duration::new` carries nanos ≥ 10^9 into the seconds, which in
rational seconds is just `secs + nanos / 10^9`. -/
def LocalClock.negOffsetDur (c : LocalClock) : ℚ :=
  (wrapU64 (-c.clock_offset_secs) : ℚ) + (wrapU32 (-c.clock_offset_nanos) : ℚ) / 1000000000

/-- `Duration::new(clock_offset_secs as u64, clock_offset_nanos as u32)` for
the non-negative branch of `tick` (both parts are ≥ 0 in that branch, so the
casts are exact). -/
def LocalClock.posOffsetDur (c : LocalClock) : ℚ :=
  (c.clock_offset_secs : ℚ) + (c.clock_offset_nanos : ℚ) / 1000000000

/-- The offset-adjusted absolute time computed at the top of
`LocalClock::tick`: `none` models the `checked_sub` underflow that makes the
whole call a silent no-op. -/
def LocalClock.adjustedTime (c : LocalClock) (t : Time) : Option ℚ :=
  if c.clock_offset_secs < 0 ∨ c.clock_offset_nanos < 0 then
    checkedSub t.absolute_time c.negOffsetDur
  else
    some (t.absolute_time + c.posOffsetDur)

/-- `Duration::mul_f32`: panics when the result is negative. -/
def mulF32 (a s : ℚ) : Except PanicErr ℚ :=
  if 0 ≤ a * s then .ok (a * s) else .error .mulNeg

/-- The `if let Some(time_scale) = self.time_scale` scaling step of
`LocalClock::tick`, applied to the raw elapsed time. -/
def LocalClock.scaledElapsed (c : LocalClock) (rem0 : ℚ) : Except PanicErr ℚ :=
  match c.time_scale with
  | some s => mulF32 rem0 s
  | none => .ok rem0

/-- Iteration count of the fixed-step accumulator loop
`while time_per_frame <= time_since_last { ... }`, run with explicit fuel so
that it stays structurally recursive.  The source loop does not terminate when
`time_per_frame ≤ 0`; all theorems below assume `0 < d`, for which
`accumFuel d rem` fuel suffices (see `accumTicks_eq_floor`). -/
def accumAux (d : ℚ) : ℕ → ℚ → ℕ
  | 0, _ => 0
  | fuel + 1, rem => if d ≤ rem then accumAux d fuel (rem - d) + 1 else 0

/-- Fuel that upper-bounds the number of iterations of the accumulator loop. -/
def accumFuel (d rem : ℚ) : ℕ := ⌊rem / d⌋₊ + 1

/-- Number of whole ticks consumed by the accumulator loop of
`LocalClock::tick`. -/
def accumTicks (d rem : ℚ) : ℕ := accumAux d (accumFuel d rem) rem

/-- `LocalClock::tick` (src/sim.rs lines 124-176).  `.ok` carries the updated
clock (including the silent no-op case where the offset-adjusted time would
precede the remote epoch); `.error` models a panic. -/
def LocalClock.tick (c : LocalClock) (t : Time) : Except PanicErr LocalClock :=
  match c.adjustedTime t with
  | none => .ok c
  | some abs_time =>
    match checkedSub abs_time c.absolute_time with
    | none => .error .clockUnderflow
    | some rem0 =>
      match c.scaledElapsed rem0 with
      | .error e => .error e
      | .ok rem =>
        match c.time_per_frame with
        | some tpf =>
          let k := accumTicks tpf rem
          .ok { c with
            frames_since_tick := k
            frame_number := c.frame_number + k
            absolute_time := c.absolute_time + k * tpf
            delta_time := tpf
            interpolation_alpha :=
              if 0 < c.frame_number + k then (rem - k * tpf) / tpf
              else c.interpolation_alpha }
        | none =>
          match c.time_scale with
          | some s =>
            match mulF32 t.delta_time s with
            | .error e => .error e
            | .ok dt =>
              .ok { c with
                delta_time := dt
                absolute_time := c.absolute_time + rem
                frames_since_tick := 1
                frame_number := c.frame_number + 1
                interpolation_alpha := 0 }
          | none =>
            .ok { c with
              delta_time := t.delta_time
              absolute_time := abs_time
              frames_since_tick := 1
              frame_number := c.frame_number + 1
              interpolation_alpha := 0 }

/-! ## Interpolation buffer (`splines::Spline<f32, V>` with linear keys) -/

/-- `splines::Key` restricted to `Interpolation::Linear`, which is the only
interpolation mode the repository constructs. -/
structure SplineKey (V : Type) where
  t : ℚ
  value : V
  deriving DecidableEq

/-- A spline is its ordered list of keys (`Spline::from_vec(vec![])` is `[]`). -/
abbrev Spline (V : Type) := List (SplineKey V)

/-- `Spline::add`: the crate pushes the key and re-sorts (stably) by time; on
an already time-sorted buffer — the only way buffers are built here — that is
insertion after every key with equal-or-smaller time. -/
def Spline.add {V : Type} : Spline V → SplineKey V → Spline V
  | [], k => [k]
  | x :: xs, k => if x.t ≤ k.t then x :: Spline.add xs k else k :: x :: xs

/-- The reverse-index removal loop of `recv_sync`'s rollback branch
(src/sim.rs lines 308-317): for `i in (0..len).rev()`, remove index `i` when
the key at `i` exists and its time is at or after `cut`.  The argument `n` is
the next index bound to process, starting from the buffer's original length. -/
def revRemove {V : Type} (cut : ℚ) : ℕ → Spline V → Spline V
  | 0, l => l
  | i + 1, l =>
    let l1 := match l.get? i with
      | some k => if cut ≤ k.t then l.eraseIdx i else l
      | none => l
    revRemove cut i l1

/-- The crate's `search_lower_cp`: on a time-sorted key list, scan for the
consecutive pair `(k0, k1)` with `k0.t ≤ t < k1.t`; `none` when there are
fewer than two keys or `t` lies outside `[first.t, last.t)`. -/
def lowerCP {V : Type} (t : ℚ) : Spline V → Option (SplineKey V × SplineKey V)
  | k0 :: k1 :: rest =>
    if t < k0.t then none
    else if t < k1.t then some (k0, k1)
    else lowerCP t (k1 :: rest)
  | _ => none

/-- `Spline::sample` for linear keys: locate the control-point pair and
linearly interpolate with the normalized time. -/
def Spline.sample {V : Type} (lerp : V → V → ℚ → V) (l : Spline V) (t : ℚ) :
    Option V :=
  (lowerCP t l).map fun p => lerp p.1.value p.2.value ((t - p.1.t) / (p.2.t - p.1.t))

/-! ## ServerRateSimulationState (src/sim.rs lines 255-377) -/

/-- 2D vector of rational coordinates (`Vector2<f32>`). -/
structure Vec2 where
  x : ℚ
  y : ℚ
  deriving DecidableEq

/-- `Sample`: the externally visible output position. -/
structure Sample where
  pos : Vec2
  deriving DecidableEq

/-- The `DeterministicSimulation` trait (plus the `Clone`/`Interpolate`
obligations the generic code uses), as a bundle of operations over a state
type `σ` and a sync-snapshot type `V`.  Wire (de)serialization is modelled as
the identity: messages carry the decoded `V` directly. -/
structure DeterministicSimulation (σ V : Type) where
  send_state : σ → V
  recv_state : σ → V → σ
  update : σ → ℚ → ℚ → σ
  pos_sample : σ → V → Sample
  clone_from : σ → σ → σ
  lerp : V → V → ℚ → V

/-- `ServerRateSimulationState<T>` with `T`'s operations abstracted into a
`DeterministicSimulation σ V` bundle. -/
structure ServerRateSimulationState (σ V : Type) where
  interpolation_buffer : Spline V
  prev_pos : Vec2
  clock : Option LocalClock
  client_sim : σ
  server : σ
  last_server_frame : Option ℕ
  render_delay : ℚ
  server_fps : ℕ
  deriving DecidableEq

variable {σ V : Type}

/-- `ServerRateSimulationState::recv_sync` (src/sim.rs lines 270-326).
`none` models a panic: either the plain `Duration` subtraction
`local_time - server_time` underflowing, or `Duration::from_secs_f32(1/0)`
when `server_fps = 0`. -/
def ServerRateSimulationState.recv_sync (ds : DeterministicSimulation σ V)
    (st : ServerRateSimulationState σ V) (time : Time) (server_time : ℚ)
    (server_frame : ℕ) (msg : V) : Option (ServerRateSimulationState σ V) :=
  match st.clock with
  | none =>
    -- start a new local clock that started server_time in the past
    let server1 := ds.recv_state st.server msg
    if server_time ≤ time.absolute_time then
      let diff := time.absolute_time - server_time
      if st.server_fps = 0 then none
      else
        -- offset_secs = -(diff.as_secs() as i64);
        -- offset_nanos = -(diff.as_nanos() as i32)   [total nanos, i32 cast]
        let offset_secs : ℤ := -⌊diff⌋
        let offset_nanos : ℤ := wrapI32 (-(wrapI32 ⌊diff * 1000000000⌋))
        let clock : LocalClock := { LocalClock.default with
          clock_offset_secs := offset_secs
          clock_offset_nanos := offset_nanos
          time_scale := none
          time_per_frame := some (1 / (st.server_fps : ℚ))
          frame_number := server_frame
          absolute_time := server_time }
        some { st with
          server := server1
          clock := some clock
          interpolation_buffer :=
            st.interpolation_buffer.add ⟨clock.absolute_time, ds.send_state server1⟩
          client_sim := ds.clone_from st.client_sim server1 }
    else none
  | some c =>
    -- check if the incoming packet happened after our last received packet
    let newer_snapshot : Bool := match st.last_server_frame with
      | some f => decide (f < server_frame)
      | none => true
    if newer_snapshot then
      if server_frame < c.frame_number then
        let c2 := { c with frame_number := server_frame, absolute_time := server_time }
        some { st with
          last_server_frame := none
          clock := some c2
          client_sim := ds.recv_state st.client_sim msg
          interpolation_buffer :=
            revRemove c2.absolute_time st.interpolation_buffer.length
              st.interpolation_buffer }
      else
        some { st with
          last_server_frame := some server_frame
          server := ds.recv_state st.server msg }
    else
      some st

/-- One iteration of `update_render`'s per-tick loop (src/sim.rs lines
330-354); `i` ranges over `List.range frames_since_tick`, standing for the
source's `i in 1..=frames_since_tick` shifted down by one.  The accumulator is
`(client_sim, last_server_frame, interpolation_buffer)`. -/
def renderStep (ds : DeterministicSimulation σ V) (server0 : σ) (fn fst : ℕ)
    (d dt : ℚ) (acc : σ × Option ℕ × Spline V) (i : ℕ) :
    σ × Option ℕ × Spline V :=
  let frameNo := fn - (fst - (i + 1))
  let frame_time := d * (frameNo : ℚ)
  let (cs, lsf, buf) := acc
  let (cs1, lsf1) :=
    if lsf = some frameNo then (ds.clone_from cs server0, none)
    else (ds.update cs frame_time dt, lsf)
  (cs1, lsf1, buf.add ⟨frame_time, ds.send_state cs1⟩)

/-- `ServerRateSimulationState::update_render` (src/sim.rs lines 327-372).
`.error` models the panics reachable there: a clock-underflow panic inside
`tick`, `time_per_frame.unwrap()` on an absent tick duration, and the plain
`Duration` subtraction of the reconstructed offset underflowing. -/
def ServerRateSimulationState.update_render (ds : DeterministicSimulation σ V)
    (st : ServerRateSimulationState σ V) (time : Time) :
    Except PanicErr (ServerRateSimulationState σ V × Option Sample) :=
  match st.clock with
  | none => .ok (st, none)
  | some c =>
    match c.tick time with
    | .error e => .error e
    | .ok c1 =>
      match c1.time_per_frame with
      | none => .error .unwrapNone
      | some d =>
        let res := (List.range c1.frames_since_tick).foldl
          (renderStep ds st.server c1.frame_number c1.frames_since_tick d
            c1.delta_time)
          (st.client_sim, st.last_server_frame, st.interpolation_buffer)
        -- sample the simulation at (now - time_per_frame), offset into local time
        match checkedSub time.absolute_time c1.negOffsetDur with
        | none => .error .durUnderflow
        | some t0 =>
          let t := t0 - d - st.render_delay / 1000
          let st1 := { st with
            clock := some c1
            client_sim := res.1
            last_server_frame := res.2.1
            interpolation_buffer := res.2.2 }
          .ok (st1, (Spline.sample ds.lerp res.2.2 t).map (ds.pos_sample res.1))

/-! ## Simulation driver (`run_simulation`, src/sim.rs lines 417-499)

The two amethyst `Application`s (ECS scheduling, the in-memory transport with
its two seeded `NetworkMonkey`s, and the shared result collector) live in
external crates; they are abstracted as a `DriverEnv` of pure step functions
over an opaque world type `W`, and the `SmallRng` Gaussian sampler as a pure
transition over an opaque generator state `R`.  The loop structure, the
stepping policy, the per-side deltas and the constant seeds are translated
from the source. -/

/-- `SimSide`. -/
inductive SimSide where
  | Client
  | Server
  deriving DecidableEq

/-- `WorldFrame<Sample>`: one recorded output frame. -/
structure WorldFrame where
  side : SimSide
  render_time : ℚ
  net_time : ℚ
  sample : Sample
  deriving DecidableEq

/-- `SimSettings` (numeric fields; the boxed behaviour is absorbed into
`DriverEnv.init`). -/
structure SimSettings where
  curr_time : ℚ
  sim_time_scale : ℚ
  server_fps : ℕ
  sync_rate : ℕ
  render_fps : ℕ
  render_time_variance : ℚ
  duration : ℚ
  render_interpolation_delay : ℚ
  min_latency : ℚ
  max_latency : ℚ
  loss_percentage : ℚ
  playing : Bool
  deriving DecidableEq

/-- The all-zero 16-byte seed `[0; 16]` used for `SmallRng::from_seed` and
both `NetworkMonkey::new` calls. -/
def zeroSeed : List ℕ := List.replicate 16 0

/-- The external execution machinery of `run_simulation`, as deterministic
components: building the two app worlds (given the settings and the two
monkey seeds), seeding the jitter generator, sampling
`Normal(0, deviation)`, stepping one side by a delta, and reading the shared
result frames back out. -/
structure DriverEnv (W R : Type) where
  init : SimSettings → List ℕ → List ℕ → W
  rngInit : List ℕ → R
  gauss : ℚ → R → ℚ × R
  stepServer : W → ℚ → W
  stepClient : W → ℚ → W
  frames : W → List WorldFrame

/-- The driver loop `while server_time > 0. || client_time > 0. { ... }`
(src/sim.rs lines 479-494), with explicit fuel: the loop counts down two
rational budgets by per-side deltas, and with an adversarial jitter sample the
client delta can be non-positive, in which case the source loop need not
terminate.  Determinism holds for every fuel value. -/
def driverLoop {W R : Type} (env : DriverEnv W R) (s : SimSettings) :
    ℕ → ℚ → ℚ → R → W → W
  | 0, _, _, _, w => w
  | fuel + 1, server_time, client_time, rng, w =>
    if server_time > 0 ∨ client_time > 0 then
      if server_time ≥ client_time ∧ server_time > 0 then
        let server_delta : ℚ := 1 / (s.server_fps : ℚ)
        driverLoop env s fuel (server_time - server_delta) client_time rng
          (env.stepServer w server_delta)
      else if client_time > 0 then
        let deviation := (s.render_time_variance / 1000) * (1 / 2)
        let (jitter, rng1) := env.gauss deviation rng
        let client_delta := 1 / (s.render_fps : ℚ) + jitter
        driverLoop env s fuel server_time (client_time - client_delta) rng1
          (env.stepClient w client_delta)
      else w
    else w

/-- `run_simulation` with the `SmallRng` seed made explicit (the source
hard-codes `[0; 16]`; see `run_simulation`). -/
def runSimulationSeeded {W R : Type} (env : DriverEnv W R) (s : SimSettings)
    (fuel : ℕ) (seed : List ℕ) : List WorldFrame :=
  let extended_client_duration := (s.render_interpolation_delay + s.min_latency) / 1000
  let total := s.duration + extended_client_duration
  env.frames
    (driverLoop env s fuel total total (env.rngInit seed)
      (env.init s zeroSeed zeroSeed))

/-- `run_simulation`: every run seeds its generator with the constant
`[0; 16]`. -/
def run_simulation {W R : Type} (env : DriverEnv W R) (s : SimSettings)
    (fuel : ℕ) : List WorldFrame :=
  runSimulationSeeded env s fuel zeroSeed

/-! ## Concrete instances used by witnesses and counterexamples -/

deriving instance DecidableEq for Except

/-- A small concrete `DeterministicSimulation` instance over rational state
and snapshot types, used to instantiate the generic theorems on concrete
inputs. -/
def idOps : DeterministicSimulation ℚ ℚ where
  send_state := fun s => s
  recv_state := fun _ v => v
  update := fun s _ dt => s + dt
  pos_sample := fun _ v => ⟨⟨v, 0⟩⟩
  clone_from := fun _ src => src
  lerp := fun a b r => a + (b - a) * r

/-- A clock with a 1-second fixed tick, three frames in. -/
def clockFix : LocalClock :=
  { LocalClock.default with frame_number := 3, time_per_frame := some 1 }

/-- A local time instant at 5/2 seconds. -/
def timeFix : Time := { absolute_time := 5 / 2, delta_time := 1 / 60 }

/-- `clockFix` after a tick at local time 5/2: two whole frames elapsed. -/
def clockFixTicked : LocalClock :=
  { clockFix with
    frames_since_tick := 2
    frame_number := 5
    absolute_time := 2
    delta_time := 1
    interpolation_alpha := 1 / 2 }

/-- A freshly created clock (frame 0) with a 1-second fixed tick. -/
def clockZero : LocalClock :=
  { LocalClock.default with time_per_frame := some 1 }

/-- A local time instant at 1/2 second. -/
def timeHalf : Time := { absolute_time := 1 / 2, delta_time := 1 / 2 }

/-- A clock whose recorded remote time is already at 10 seconds. -/
def clockTen : LocalClock := { LocalClock.default with absolute_time := 10 }

/-- A local time instant at 5 seconds. -/
def timeFive : Time := { absolute_time := 5, delta_time := 1 }

/-- A clock with stored offset `(-3, 0)`: three seconds before the local
epoch. -/
def clockNegOff : LocalClock :=
  { LocalClock.default with clock_offset_secs := -3 }

/-- A local time instant at 1 second. -/
def timeOne : Time := { absolute_time := 1, delta_time := 1 }

/-- A fresh reconciling state as `ServerRateSimulation::new_state` builds it
(no clock yet, empty buffer, `server_fps = 30`). -/
def srsFresh : ServerRateSimulationState ℚ ℚ where
  interpolation_buffer := []
  prev_pos := ⟨0, 0⟩
  clock := none
  client_sim := 0
  server := 0
  last_server_frame := none
  render_delay := 0
  server_fps := 30

/-- A local time instant at 3/2 seconds (first sync arriving 1.5 s after the
server epoch). -/
def timeC2 : Time := { absolute_time := 3 / 2, delta_time := 1 / 60 }

/-- The clock that `recv_sync` builds on `srsFresh` at local time 3/2 for
`server_time = 0`, `server_frame = 0`: stored offset parts
`(-⌊3/2⌋, -(total nanos of 3/2))`. -/
def clockC2 : LocalClock :=
  { LocalClock.default with
    clock_offset_secs := -1
    clock_offset_nanos := -1500000000
    time_per_frame := some (1 / 30)
    frame_number := 0
    absolute_time := 0 }

/-- A live clock four frames in, 1/2-second ticks, re-anchored to remote
time 2. -/
def clockLive : LocalClock :=
  { LocalClock.default with
    frame_number := 4
    absolute_time := 2
    time_per_frame := some (1 / 2) }

/-- A running reconciling state around `clockLive`, with a pending confirmed
frame 1 and three buffered keyframes. -/
def srsLive : ServerRateSimulationState ℚ ℚ where
  interpolation_buffer := [⟨0, 1⟩, ⟨1, 2⟩, ⟨2, 3⟩]
  prev_pos := ⟨0, 0⟩
  clock := some clockLive
  client_sim := 5
  server := 6
  last_server_frame := some 1
  render_delay := 0
  server_fps := 30

/-- A clock two frames in with 1-second ticks and zero offset. -/
def clockRender : LocalClock :=
  { LocalClock.default with
    frame_number := 2
    absolute_time := 0
    time_per_frame := some 1 }

/-- A running reconciling state around `clockRender` with a pending confirmed
frame 3. -/
def srsRender : ServerRateSimulationState ℚ ℚ where
  interpolation_buffer := [⟨0, 1⟩]
  prev_pos := ⟨0, 0⟩
  clock := some clockRender
  client_sim := 5
  server := 6
  last_server_frame := some 3
  render_delay := 0
  server_fps := 30

/-- A local time instant at 2 seconds. -/
def timeTwo : Time := { absolute_time := 2, delta_time := 1 / 60 }

/-- A running reconciling state around `clockRender` whose buffer spans
`[-1, 0]`, used to exercise the render-delay sampling. -/
def srsSample : ServerRateSimulationState ℚ ℚ where
  interpolation_buffer := [⟨-1, 1⟩, ⟨0, 2⟩]
  prev_pos := ⟨0, 0⟩
  clock := some clockRender
  client_sim := 5
  server := 6
  last_server_frame := none
  render_delay := 0
  server_fps := 30

/-- `clockRender` after a tick at local time 1/2 (no whole tick elapses;
`delta_time` becomes the tick duration and the alpha the sub-tick
remainder). -/
def clockSampled : LocalClock :=
  { clockRender with delta_time := 1, interpolation_alpha := 1 / 2 }

/-- `srsSample` after `update_render` at local time 1/2. -/
def srsSampled : ServerRateSimulationState ℚ ℚ :=
  { srsSample with clock := some clockSampled }

/-- A trivial driver environment over unit-like worlds, used to instantiate
the determinism theorem. -/
def envTrivial : DriverEnv ℕ ℕ where
  init := fun _ _ _ => 0
  rngInit := fun _ => 0
  gauss := fun _ r => (0, r)
  stepServer := fun w _ => w + 1
  stepClient := fun w _ => w + 1
  frames := fun _ => []

/-- The default `SimSettings` values (src/sim.rs lines 52-70). -/
def SimSettings.default : SimSettings where
  curr_time := 0
  sim_time_scale := 1
  render_fps := 60
  sync_rate := 30
  server_fps := 30
  duration := 1 / 2
  render_interpolation_delay := 0
  render_time_variance := 0
  min_latency := 0
  max_latency := 0
  loss_percentage := 0
  playing := false

/-! ## Helper lemmas -/

/-- The fuelled accumulator loop computes `⌊rem / d⌋₊` whenever the tick
duration is positive and the fuel exceeds that value. -/
theorem accumAux_eq_floor (d : ℚ) (hd : 0 < d) :
    ∀ fuel rem, ⌊rem / d⌋₊ < fuel → accumAux d fuel rem = ⌊rem / d⌋₊ := by
  intro fuel
  induction fuel with
  | zero => intro rem h; omega
  | succ n ih =>
    intro rem h
    by_cases hle : d ≤ rem
    · have hone : (1 : ℚ) ≤ rem / d := (le_div_iff₀ hd).mpr (by linarith)
      have hfloor1 : 1 ≤ ⌊rem / d⌋₊ := Nat.le_floor (by exact_mod_cast hone)
      have hsub : (rem - d) / d = rem / d - 1 := by field_simp
      have hfs : ⌊(rem - d) / d⌋₊ = ⌊rem / d⌋₊ - 1 := by
        rw [hsub, Nat.floor_sub_one]
      have := ih (rem - d) (by omega)
      simp only [accumAux, if_pos hle, this, hfs]
      omega
    · have hlt : rem / d < 1 := (div_lt_one hd).mpr (lt_of_not_le hle)
      have h0 : ⌊rem / d⌋₊ = 0 := Nat.floor_eq_zero.mpr hlt
      simp [accumAux, hle, h0]

/-- `accumTicks` with a positive tick duration is the floor of the ratio: the
source `while` loop consumes exactly `⌊rem / d⌋₊` whole ticks. -/
theorem accumTicks_eq_floor (d rem : ℚ) (hd : 0 < d) :
    accumTicks d rem = ⌊rem / d⌋₊ :=
  accumAux_eq_floor d hd _ rem (Nat.lt_succ_self _)

/-- The reverse-index removal loop, processing indices below `n`, removes
exactly the keys at those indices whose time is at or after `cut` and leaves
everything else (order included) intact. -/
theorem revRemove_eq_filter_aux {V : Type} (cut : ℚ) :
    ∀ (n : ℕ) (l : Spline V), n ≤ l.length →
      revRemove cut n l =
        (l.take n).filter (fun k => decide (k.t < cut)) ++ l.drop n := by
  intro n
  induction n with
  | zero => intro l h; simp [revRemove]
  | succ n ih =>
    intro l h
    have hn : n < l.length := h
    have hget : l.get? n = some l[n] := by
      rw [List.get?_eq_getElem?, List.getElem?_eq_getElem hn]
    have htake : l.take (n + 1) = l.take n ++ [l[n]] := by
      rw [List.take_succ, List.getElem?_eq_getElem hn]; rfl
    have hlen_take : (l.take n).length = n := by
      rw [List.length_take]; omega
    have herase : l.eraseIdx n = l.take n ++ l.drop (n + 1) :=
      List.eraseIdx_eq_take_drop_succ l n
    by_cases hcut : cut ≤ l[n].t
    · have h1 : revRemove cut (n + 1) l = revRemove cut n (l.eraseIdx n) := by
        simp only [revRemove]
        rw [hget]
        simp [hcut]
      have hlen : n ≤ (l.eraseIdx n).length := by
        rw [List.length_eraseIdx]
        simp only [hn, if_pos]
        omega
      have htk : (l.eraseIdx n).take n = l.take n := by
        rw [herase]
        have h2 := List.take_left (l.take n) (l.drop (n + 1))
        rwa [hlen_take] at h2
      have hdr : (l.eraseIdx n).drop n = l.drop (n + 1) := by
        rw [herase]
        have h2 := List.drop_left (l.take n) (l.drop (n + 1))
        rwa [hlen_take] at h2
      have hdec : (decide (l[n].t < cut)) = false := decide_eq_false (not_lt.mpr hcut)
      rw [h1, ih _ hlen, htk, hdr, htake, List.filter_append]
      simp [List.filter_cons, hdec]
    · have h1 : revRemove cut (n + 1) l = revRemove cut n l := by
        simp only [revRemove]
        rw [hget]
        simp [hcut]
      have hdrop : l.drop n = l[n] :: l.drop (n + 1) := List.drop_eq_getElem_cons hn
      have hdec : (decide (l[n].t < cut)) = true := decide_eq_true (lt_of_not_le hcut)
      rw [h1, ih _ (le_of_lt hn), htake, List.filter_append, hdrop]
      simp [List.filter_cons, hdec]

/-- Run over the whole buffer, the rollback removal loop is exactly the filter
keeping the keys strictly before the cut time. -/
theorem revRemove_eq_filter {V : Type} (cut : ℚ) (l : Spline V) :
    revRemove cut l.length l = l.filter (fun k => decide (k.t < cut)) := by
  have := revRemove_eq_filter_aux cut l.length l le_rfl
  simpa using this

/-- Inversion for `checkedSub`. -/
theorem checkedSub_some {a b r : ℚ} :
    checkedSub a b = some r ↔ b ≤ a ∧ r = a - b := by
  unfold checkedSub
  split
  next h =>
    constructor
    · intro he
      cases he
      exact ⟨h, rfl⟩
    · rintro ⟨-, rfl⟩
      rfl
  next h =>
    constructor
    · intro he
      cases he
    · rintro ⟨h2, -⟩
      exact absurd h2 h

/-- Evaluation helper: compute `⌊q⌋₊` from explicit rational bounds. -/
theorem natFloor_eval (q : ℚ) (n : ℕ) (h1 : (n : ℚ) ≤ q) (h2 : q < n + 1) :
    ⌊q⌋₊ = n := by
  have h0 : 0 ≤ q := le_trans (Nat.cast_nonneg n) h1
  rw [Nat.floor_eq_iff h0]
  exact ⟨h1, h2⟩

/-- A successful `mulF32` result is non-negative. -/
theorem mulF32_ok_nonneg {a s r : ℚ} (h : mulF32 a s = .ok r) : 0 ≤ r := by
  unfold mulF32 at h
  split at h
  · cases h; assumption
  · cases h

/-- A failing `mulF32` only ever reports the negative-scaling panic. -/
theorem mulF32_error {a s : ℚ} {e : PanicErr} (h : mulF32 a s = .error e) :
    e = .mulNeg := by
  unfold mulF32 at h
  split at h
  · cases h
  · cases h; rfl

/-- A successful scaling step applied to a non-negative elapsed time yields a
non-negative elapsed time. -/
theorem scaledElapsed_ok_nonneg {c : LocalClock} {x r : ℚ} (hx : 0 ≤ x)
    (h : c.scaledElapsed x = .ok r) : 0 ≤ r := by
  unfold LocalClock.scaledElapsed at h
  split at h
  · exact mulF32_ok_nonneg h
  · cases h; assumption

/-- A failing scaling step only ever reports the negative-scaling panic. -/
theorem scaledElapsed_error {c : LocalClock} {x : ℚ} {e : PanicErr}
    (h : c.scaledElapsed x = .error e) : e = .mulNeg := by
  unfold LocalClock.scaledElapsed at h
  split at h
  · exact mulF32_error h
  · cases h

/-- The fixed-tick branch of `tick`, fully characterized: this is the shared
workhorse behind the fixed-step claims. -/
theorem tick_fixed_eq (c : LocalClock) (t : Time) (a D d : ℚ)
    (hadj : c.adjustedTime t = some a)
    (hge : c.absolute_time ≤ a)
    (hD : c.scaledElapsed (a - c.absolute_time) = .ok D)
    (htpf : c.time_per_frame = some d) (hd : 0 < d) :
    c.tick t = .ok { c with
      frames_since_tick := ⌊D / d⌋₊
      frame_number := c.frame_number + ⌊D / d⌋₊
      absolute_time := c.absolute_time + ⌊D / d⌋₊ * d
      delta_time := d
      interpolation_alpha :=
        if 0 < c.frame_number + ⌊D / d⌋₊ then (D - ⌊D / d⌋₊ * d) / d
        else c.interpolation_alpha } := by
  have hacc := accumTicks_eq_floor d D hd
  have hcs : checkedSub a c.absolute_time = some (a - c.absolute_time) := by
    simp [checkedSub, hge]
  unfold LocalClock.tick
  simp only [hadj, hcs, hD, htpf, hacc]

/-! ## Claims about `LocalClock` -/

/-- C5 (counterexample): the claim asserts that `interpolation_alpha` is
always set to `(D mod tick) / tick`, but for a freshly created clock whose
`frame_number` ends at `0` the source guards the assignment with
`if self.frame_number > 0` and leaves the alpha untouched.  Here the scaled
elapsed time is `D = 1/2` with tick duration `1`, the claimed alpha is `1/2`,
yet `tick` returns alpha `0`. -/
theorem C5_counterexample :
    LocalClock.adjustedTime clockZero timeHalf = some (1 / 2) ∧
    clockZero.absolute_time ≤ 1 / 2 ∧
    LocalClock.scaledElapsed clockZero (1 / 2 - clockZero.absolute_time) = .ok (1 / 2) ∧
    clockZero.time_per_frame = some 1 ∧
    (LocalClock.tick clockZero timeHalf).toOption.map LocalClock.interpolation_alpha =
      some 0 ∧
    (((1 : ℚ) / 2 - (⌊((1 : ℚ) / 2) / 1⌋₊ : ℚ) * 1) / 1) ≠ 0 := by
  have hadj : LocalClock.adjustedTime clockZero timeHalf = some (1 / 2) := by
    norm_num [LocalClock.adjustedTime, LocalClock.posOffsetDur, clockZero, timeHalf,
      LocalClock.default]
  have hge : clockZero.absolute_time ≤ 1 / 2 := by
    norm_num [clockZero, LocalClock.default]
  have hD : LocalClock.scaledElapsed clockZero (1 / 2 - clockZero.absolute_time) =
      .ok (1 / 2) := by
    norm_num [LocalClock.scaledElapsed, clockZero, LocalClock.default]
  have htpf : clockZero.time_per_frame = some 1 := rfl
  have hfl : ⌊((1 : ℚ) / 2) / 1⌋₊ = 0 := natFloor_eval _ 0 (by norm_num) (by norm_num)
  have htick := tick_fixed_eq clockZero timeHalf (1 / 2) (1 / 2) 1 hadj hge hD htpf
    (by norm_num)
  have hfl2 : ⌊(2⁻¹ : ℚ)⌋₊ = 0 := natFloor_eval _ 0 (by norm_num) (by norm_num)
  refine ⟨hadj, hge, hD, htpf, ?_, ?_⟩
  · rw [htick]
    simp [hfl, hfl2, clockZero, LocalClock.default, Except.toOption]
  · rw [hfl]
    norm_num

/-- C5 (amended): with an initialized offset-adjusted time `a` at or after the
recorded `absolute_time`, scaled elapsed time `D` and positive fixed tick
duration `d`, `tick` advances `frame_number` by `⌊D / d⌋₊`, advances
`absolute_time` by the same count of whole ticks, records that count in
`frames_since_tick`, sets `delta_time` to the tick duration, and sets
`interpolation_alpha` to the sub-tick remainder divided by the tick duration
provided the updated `frame_number` is positive — otherwise
`interpolation_alpha` is left unchanged. -/
theorem C5_fixed_step_catchup (c : LocalClock) (t : Time) (a D d : ℚ)
    (hadj : c.adjustedTime t = some a)
    (hge : c.absolute_time ≤ a)
    (hD : c.scaledElapsed (a - c.absolute_time) = .ok D)
    (htpf : c.time_per_frame = some d) (hd : 0 < d) :
    c.tick t = .ok { c with
      frames_since_tick := ⌊D / d⌋₊
      frame_number := c.frame_number + ⌊D / d⌋₊
      absolute_time := c.absolute_time + ⌊D / d⌋₊ * d
      delta_time := d
      interpolation_alpha :=
        if 0 < c.frame_number + ⌊D / d⌋₊ then (D - ⌊D / d⌋₊ * d) / d
        else c.interpolation_alpha } :=
  tick_fixed_eq c t a D d hadj hge hD htpf hd

/-- C5 witness: three frames in, `D = 5/2` with tick duration `1`: two whole
ticks are consumed, and the alpha becomes the remainder `1/2`. -/
theorem C5_fixed_step_catchup_witness :
    LocalClock.tick clockFix timeFix = .ok { clockFix with
      frames_since_tick := ⌊((5 : ℚ) / 2) / 1⌋₊
      frame_number := clockFix.frame_number + ⌊((5 : ℚ) / 2) / 1⌋₊
      absolute_time := clockFix.absolute_time + ⌊((5 : ℚ) / 2) / 1⌋₊ * 1
      delta_time := 1
      interpolation_alpha :=
        if 0 < clockFix.frame_number + ⌊((5 : ℚ) / 2) / 1⌋₊ then
          ((5 : ℚ) / 2 - ⌊((5 : ℚ) / 2) / 1⌋₊ * 1) / 1
        else clockFix.interpolation_alpha } :=
  C5_fixed_step_catchup clockFix timeFix (5 / 2) (5 / 2) 1
    (by norm_num [LocalClock.adjustedTime, LocalClock.posOffsetDur, clockFix, timeFix,
      LocalClock.default])
    (by norm_num [clockFix, LocalClock.default])
    (by norm_num [LocalClock.scaledElapsed, clockFix, LocalClock.default])
    rfl (by norm_num)

/-- C7: a completed `tick` call never decreases `frame_number` or
`absolute_time` (assuming the configured tick duration, a Rust `Duration`, is
non-negative).  Applied at every call of a sequence, this is the claimed
monotonicity across any sequence of `tick` calls. -/
theorem C7_clock_monotonic (c : LocalClock) (t : Time) (c' : LocalClock)
    (htpf : ∀ d, c.time_per_frame = some d → 0 ≤ d)
    (h : c.tick t = .ok c') :
    c.frame_number ≤ c'.frame_number ∧ c.absolute_time ≤ c'.absolute_time := by
  unfold LocalClock.tick at h
  split at h
  · cases h
    exact ⟨le_refl _, le_refl _⟩
  next a hadj =>
    split at h
    · cases h
    next rem0 hcs =>
      obtain ⟨hge, hrem0⟩ := checkedSub_some.mp hcs
      split at h
      · cases h
      next rem hse =>
        have hrem : 0 ≤ rem := scaledElapsed_ok_nonneg (by linarith [hrem0.ge, hrem0.le]) hse
        split at h
        next d htpfd =>
          cases h
          refine ⟨by simp, ?_⟩
          have hd : 0 ≤ d := htpf d htpfd
          have : 0 ≤ (accumTicks d rem : ℚ) * d := by positivity
          simp only []
          linarith
        next htpfn =>
          split at h
          next s hsc =>
            split at h
            · cases h
            next dt hmul =>
              cases h
              refine ⟨by simp, ?_⟩
              simp only []
              linarith
          next hsc =>
            cases h
            refine ⟨by simp, ?_⟩
            have : rem = rem0 := by
              unfold LocalClock.scaledElapsed at hse
              rw [hsc] at hse
              cases hse
              rfl
            simp only []
            subst hrem0
            linarith [hrem, this ▸ hrem]

/-- C8: inside `tick`, once the offset-adjusted remote time `a` has been
computed, the call panics (fails loudly with the dedicated
"Time is before LocalClock time" expect) exactly when `a` precedes the
recorded `absolute_time`; when it does not precede it, that failure is
unreachable — no silent clamping in either case. -/
theorem C8_underflow_fails_loudly (c : LocalClock) (t : Time) (a : ℚ)
    (hadj : c.adjustedTime t = some a) :
    (a < c.absolute_time → c.tick t = .error .clockUnderflow) ∧
    (c.absolute_time ≤ a → c.tick t ≠ .error .clockUnderflow) := by
  constructor
  · intro hlt
    have hcs : checkedSub a c.absolute_time = none := by
      simp [checkedSub, not_le.mpr hlt]
    unfold LocalClock.tick
    simp only [hadj, hcs]
  · intro hge h
    have hcs : checkedSub a c.absolute_time = some (a - c.absolute_time) := by
      simp [checkedSub, hge]
    unfold LocalClock.tick at h
    simp only [hadj, hcs] at h
    split at h
    next e hse =>
      rw [scaledElapsed_error hse] at h
      exact PanicErr.noConfusion (Except.error.inj h)
    next rem hse =>
      split at h
      next d htpfd => cases h
      next htpfn =>
        split at h
        next s hsc =>
          split at h
          next e2 hmul =>
            rw [mulF32_error hmul] at h
            exact PanicErr.noConfusion (Except.error.inj h)
          next dt hmul => cases h
        next hsc => cases h

/-- C8 witness: a clock whose recorded remote time (10 s) is ahead of the
adjusted local time (5 s) panics with the clock-underflow expect. -/
theorem C8_underflow_fails_loudly_witness :
    ((5 : ℚ) < clockTen.absolute_time →
      clockTen.tick timeFive = .error .clockUnderflow) ∧
    (clockTen.absolute_time ≤ 5 → clockTen.tick timeFive ≠ .error .clockUnderflow) :=
  C8_underflow_fails_loudly clockTen timeFive 5
    (by norm_num [LocalClock.adjustedTime, LocalClock.posOffsetDur, clockTen, timeFive,
      LocalClock.default])

/-- C10: when the stored clock offset is negative and its reconstructed
magnitude exceeds the current local absolute time (the adjusted time would
fall before the remote epoch), `tick` is a silent no-op: it returns without
an error and leaves every field of the clock unchanged. -/
theorem C10_pre_epoch_noop (c : LocalClock) (t : Time)
    (hs : c.clock_offset_secs ≤ 0) (hn : c.clock_offset_nanos ≤ 0)
    (hneg : c.clock_offset_secs < 0 ∨ c.clock_offset_nanos < 0)
    (hmag : t.absolute_time < c.negOffsetDur) :
    c.tick t = .ok c := by
  have hadj : c.adjustedTime t = none := by
    unfold LocalClock.adjustedTime
    rw [if_pos hneg]
    simp [checkedSub, not_le.mpr hmag]
  unfold LocalClock.tick
  simp only [hadj]

/-- C10 witness: stored offset `(-3, 0)` at local time 1 s: the subtraction
would underflow, and `tick` returns the clock unchanged. -/
theorem C10_pre_epoch_noop_witness : clockNegOff.tick timeOne = .ok clockNegOff :=
  C10_pre_epoch_noop clockNegOff timeOne (by norm_num [clockNegOff, LocalClock.default])
    (by norm_num [clockNegOff, LocalClock.default])
    (Or.inl (by norm_num [clockNegOff, LocalClock.default]))
    (by norm_num [clockNegOff, timeOne, LocalClock.default, LocalClock.negOffsetDur,
      wrapU64, wrapU32])

/-! ## Claims about `ServerRateSimulationState` -/

/-- C1: with an initialized clock, a sync message strictly newer than the
last-seen frame but strictly older than the clock's current frame performs the
rollback correction: the clock is re-anchored to `(server_frame,
server_time)`, the pending confirmed-frame marker is cleared, the predicted
instance is overwritten with the decoded snapshot, and exactly the
interpolation keyframes timed at or after the corrected time are removed,
earlier ones staying intact (the buffer becomes the filter of keys strictly
before `server_time`). -/
theorem C1_rollback_correction {σ V : Type} (ds : DeterministicSimulation σ V)
    (st : ServerRateSimulationState σ V) (c : LocalClock) (time : Time)
    (server_time : ℚ) (server_frame : ℕ) (msg : V)
    (hc : st.clock = some c)
    (hnewer : ∀ f, st.last_server_frame = some f → f < server_frame)
    (hroll : server_frame < c.frame_number) :
    st.recv_sync ds time server_time server_frame msg = some { st with
      clock := some { c with frame_number := server_frame, absolute_time := server_time }
      last_server_frame := none
      client_sim := ds.recv_state st.client_sim msg
      interpolation_buffer :=
        st.interpolation_buffer.filter (fun k => decide (k.t < server_time)) } := by
  have hfilter := revRemove_eq_filter (V := V) server_time st.interpolation_buffer
  cases hl : st.last_server_frame with
  | none =>
    simp [ServerRateSimulationState.recv_sync, hc, hl, hroll, hfilter]
  | some f =>
    have hf := hnewer f hl
    simp [ServerRateSimulationState.recv_sync, hc, hl, hf, hroll, hfilter]

/-- C1 witness: frame 2 arrives after last-seen frame 1 while the clock is at
frame 4: the clock re-anchors to `(2, 3/2)` and the keyframes at times `≥ 3/2`
are dropped. -/
theorem C1_rollback_correction_witness :
    srsLive.recv_sync idOps timeTwo (3 / 2) 2 9 = some { srsLive with
      clock := some { clockLive with frame_number := 2, absolute_time := 3 / 2 }
      last_server_frame := none
      client_sim := idOps.recv_state srsLive.client_sim 9
      interpolation_buffer :=
        srsLive.interpolation_buffer.filter (fun k => decide (k.t < 3 / 2)) } :=
  C1_rollback_correction idOps srsLive clockLive timeTwo (3 / 2) 2 9 rfl
    (by intro f hf; cases hf; decide) (by decide)

/-- Evaluation helper: compute `⌊q⌋` from explicit rational bounds. -/
theorem intFloor_eval (q : ℚ) (z : ℤ) (h1 : (z : ℚ) ≤ q) (h2 : q < z + 1) :
    ⌊q⌋ = z :=
  Int.floor_eq_iff.mpr ⟨h1, h2⟩

/-- C2 (code bug): on the first sync message the code stores the offset as
`(-(diff.as_secs()), -(diff.as_nanos() as i32))`, i.e. the nanos part holds
the *total* nanoseconds of `diff = local_time - server_time`, while both
`tick` and `update_render` reconstruct the offset as
`Duration::new(secs, nanos)`, a `(seconds, sub-second nanos)` decomposition.
For `diff = 3/2` the stored parts are `(-1, -1500000000)` and the
reconstructed magnitude is `1 + 1500000000/10^9 = 5/2`: the whole seconds of
`diff` are counted twice, so the clock is *not* aligned with offset
`local_time - server_time` as both the spec and the code's own
reconstruction sites intend. -/
theorem C2_first_sync_offset_code_bug :
    srsFresh.recv_sync idOps timeC2 0 0 7 = some { srsFresh with
      server := 7
      clock := some clockC2
      interpolation_buffer := [⟨0, 7⟩]
      client_sim := 7 } ∧
    clockC2.negOffsetDur = 5 / 2 ∧
    timeC2.absolute_time - 0 = 3 / 2 ∧
    ((5 : ℚ) / 2) ≠ (3 : ℚ) / 2 := by
  have hf1 : ⌊(3 / 2 : ℚ)⌋ = 1 := intFloor_eval _ 1 (by norm_num) (by norm_num)
  have hf2 : ⌊(1500000000 : ℚ)⌋ = 1500000000 :=
    intFloor_eval _ 1500000000 (by norm_num) (by norm_num)
  have hw1 : wrapI32 1500000000 = 1500000000 := by decide
  have hw2 : wrapI32 (-1500000000) = -1500000000 := by decide
  have hw3 : wrapU64 1 = 1 := by decide
  have hw4 : wrapU32 1500000000 = 1500000000 := by decide
  refine ⟨?_, ?_, by norm_num [timeC2], by norm_num⟩
  · norm_num [ServerRateSimulationState.recv_sync, srsFresh, timeC2, idOps, clockC2,
      LocalClock.default, Spline.add, hf1, hf2, hw1, hw2]
  · norm_num [LocalClock.negOffsetDur, clockC2, LocalClock.default, hw3, hw4]

/-- C6: with an initialized clock, delivering the same sync message twice
leaves the predicted instance exactly as after one delivery, and a message
whose frame is not strictly newer than the last-seen frame is discarded
outright — the whole state (clock, buffer, predicted and confirmed instances,
marker) is returned unchanged. -/
theorem C6_duplicate_idempotent {σ V : Type} (ds : DeterministicSimulation σ V)
    (st : ServerRateSimulationState σ V) (c : LocalClock) (time1 time2 : Time)
    (server_time : ℚ) (server_frame : ℕ) (msg : V)
    (hc : st.clock = some c) :
    ((st.recv_sync ds time1 server_time server_frame msg).bind
        (fun st1 => st1.recv_sync ds time2 server_time server_frame msg)).map
        ServerRateSimulationState.client_sim
      = (st.recv_sync ds time1 server_time server_frame msg).map
        ServerRateSimulationState.client_sim ∧
    (∀ f, st.last_server_frame = some f → server_frame ≤ f →
      st.recv_sync ds time1 server_time server_frame msg = some st) := by
  have hirr : ¬ server_frame < server_frame := lt_irrefl _
  constructor
  · cases hl : st.last_server_frame with
    | some f =>
      by_cases hf : f < server_frame
      · by_cases hroll : server_frame < c.frame_number
        · simp [ServerRateSimulationState.recv_sync, hc, hl, hf, hroll, hirr]
        · simp [ServerRateSimulationState.recv_sync, hc, hl, hf, hroll, hirr]
      · simp [ServerRateSimulationState.recv_sync, hc, hl, hf]
    | none =>
      by_cases hroll : server_frame < c.frame_number
      · simp [ServerRateSimulationState.recv_sync, hc, hl, hroll, hirr]
      · simp [ServerRateSimulationState.recv_sync, hc, hl, hroll, hirr]
  · intro f hl hle
    simp [ServerRateSimulationState.recv_sync, hc, hl, not_lt.mpr hle]

/-- C6 witness: on `srsLive` (last-seen frame 1, clock at frame 4) the
duplicate of the frame-2 rollback message leaves the predicted instance as
after the first delivery, and a stale frame-1 message is discarded with the
state unchanged. -/
theorem C6_duplicate_idempotent_witness :
    (((srsLive.recv_sync idOps timeTwo (3 / 2) 2 9).bind
        (fun st1 => st1.recv_sync idOps timeTwo (3 / 2) 2 9)).map
        ServerRateSimulationState.client_sim
      = (srsLive.recv_sync idOps timeTwo (3 / 2) 2 9).map
        ServerRateSimulationState.client_sim) ∧
    (∀ f, srsLive.last_server_frame = some f → 1 ≤ f →
      srsLive.recv_sync idOps timeTwo (3 / 2) 1 9 = some srsLive) :=
  C6_duplicate_idempotent idOps srsLive clockLive timeTwo timeTwo (3 / 2) 2 9 rfl
    |>.imp id (fun h => fun f hf hle =>
      (C6_duplicate_idempotent idOps srsLive clockLive timeTwo timeTwo (3 / 2) 1 9
        rfl).2 f hf hle)

/-- C3: with an initialized clock (time-scale-free, positive fixed tick `d`,
as `recv_sync` builds it) whose tick elapses `⌊(a - absolute_time)/d⌋₊` new
frames, `update_render` processes exactly those frames oldest to newest
(`frame_number + 1`, …, `frame_number + k`): a frame equal to the pending
confirmed frame clones the confirmed server state into the predicted instance
and clears the marker, any other frame advances the predicted instance by
exactly one fixed tick `d` of the deterministic update, and in both cases the
resulting predicted state is appended to the interpolation buffer keyed by
that frame's timeline time `d·frame`. -/
theorem C3_render_tick_loop {σ V : Type} (ds : DeterministicSimulation σ V)
    (st : ServerRateSimulationState σ V) (time : Time) (c : LocalClock) (a d : ℚ)
    (hc : st.clock = some c)
    (hadj : c.adjustedTime time = some a)
    (hge : c.absolute_time ≤ a)
    (hscale : c.time_scale = none)
    (htpf : c.time_per_frame = some d) (hd : 0 < d)
    (hsub : c.negOffsetDur ≤ time.absolute_time) :
    (st.update_render ds time).map
        (fun p => (p.1.client_sim, p.1.last_server_frame, p.1.interpolation_buffer))
      = .ok (((List.range ⌊(a - c.absolute_time) / d⌋₊).map
            (fun j => c.frame_number + 1 + j)).foldl
          (fun acc fno =>
            ((if acc.2.1 = some fno then ds.clone_from acc.1 st.server
              else ds.update acc.1 (d * (fno : ℚ)) d),
             (if acc.2.1 = some fno then none else acc.2.1),
             Spline.add acc.2.2
               ⟨d * (fno : ℚ), ds.send_state
                 (if acc.2.1 = some fno then ds.clone_from acc.1 st.server
                  else ds.update acc.1 (d * (fno : ℚ)) d)⟩))
          (st.client_sim, st.last_server_frame, st.interpolation_buffer)) := by
  have hD : c.scaledElapsed (a - c.absolute_time) = .ok (a - c.absolute_time) := by
    simp [LocalClock.scaledElapsed, hscale]
  have htick := tick_fixed_eq c time a (a - c.absolute_time) d hadj hge hD htpf hd
  have hsub' := hsub
  unfold LocalClock.negOffsetDur at hsub'
  have hcs2 : checkedSub time.absolute_time
      ((wrapU64 (-c.clock_offset_secs) : ℚ) +
        (wrapU32 (-c.clock_offset_nanos) : ℚ) / 1000000000)
      = some (time.absolute_time -
        ((wrapU64 (-c.clock_offset_secs) : ℚ) +
          (wrapU32 (-c.clock_offset_nanos) : ℚ) / 1000000000)) := by
    simp [checkedSub, hsub']
  unfold ServerRateSimulationState.update_render
  simp only [hc, htick, htpf, LocalClock.negOffsetDur, hcs2, Except.map]
  rw [List.foldl_map]
  congr 1
  apply List.foldl_ext
  intro acc j hj
  have hjk : j < ⌊(a - c.absolute_time) / d⌋₊ := List.mem_range.mp hj
  have hfno : c.frame_number + ⌊(a - c.absolute_time) / d⌋₊
      - (⌊(a - c.absolute_time) / d⌋₊ - (j + 1)) = c.frame_number + 1 + j := by
    omega
  unfold renderStep
  rw [hfno]
  by_cases hpend : acc.2.1 = some (c.frame_number + 1 + j)
  · simp [hpend]
  · simp [hpend]

/-- C3 witness: `srsRender` (clock at frame 2, pending confirmed frame 3,
1-second ticks) ticked to local time 2 processes frames 3 and 4 oldest to
newest through the claimed per-frame rule. -/
theorem C3_render_tick_loop_witness :
    (srsRender.update_render idOps timeTwo).map
        (fun p => (p.1.client_sim, p.1.last_server_frame, p.1.interpolation_buffer))
      = .ok (((List.range ⌊((2 : ℚ) - clockRender.absolute_time) / 1⌋₊).map
            (fun j => clockRender.frame_number + 1 + j)).foldl
          (fun acc fno =>
            ((if acc.2.1 = some fno then idOps.clone_from acc.1 srsRender.server
              else idOps.update acc.1 (1 * (fno : ℚ)) 1),
             (if acc.2.1 = some fno then none else acc.2.1),
             Spline.add acc.2.2
               ⟨1 * (fno : ℚ), idOps.send_state
                 (if acc.2.1 = some fno then idOps.clone_from acc.1 srsRender.server
                  else idOps.update acc.1 (1 * (fno : ℚ)) 1)⟩))
          (srsRender.client_sim, srsRender.last_server_frame,
            srsRender.interpolation_buffer)) :=
  C3_render_tick_loop idOps srsRender timeTwo clockRender 2 1 rfl
    (by norm_num [LocalClock.adjustedTime, LocalClock.posOffsetDur, clockRender,
      timeTwo, LocalClock.default])
    (by norm_num [clockRender, LocalClock.default]) rfl rfl (by norm_num)
    (by norm_num [LocalClock.negOffsetDur, clockRender, timeTwo, LocalClock.default,
      wrapU64, wrapU32])

/-- C4: with an initialized clock, an `update_render` call that returns
samples the (post-append) interpolation buffer at
`(reconstructed remote time - one tick duration - render_delay/1000)` and
returns the interpolated position of the predicted instance when a sample
exists there, `none` otherwise; and for `render_delay = 0` the sampling time
never exceeds `(reconstructed remote time - one tick)`, where the
reconstructed remote time is `local time - reconstructed offset`. -/
theorem C4_render_delay_sampling {σ V : Type} (ds : DeterministicSimulation σ V)
    (st : ServerRateSimulationState σ V) (time : Time) (c : LocalClock) (a d : ℚ)
    (st1 : ServerRateSimulationState σ V) (res : Option Sample)
    (hc : st.clock = some c)
    (hadj : c.adjustedTime time = some a)
    (hge : c.absolute_time ≤ a)
    (hscale : c.time_scale = none)
    (htpf : c.time_per_frame = some d) (hd : 0 < d)
    (hsub : c.negOffsetDur ≤ time.absolute_time)
    (hres : st.update_render ds time = .ok (st1, res)) :
    res = (Spline.sample ds.lerp st1.interpolation_buffer
        (time.absolute_time - c.negOffsetDur - d - st.render_delay / 1000)).map
        (ds.pos_sample st1.client_sim) ∧
    (st.render_delay = 0 →
      time.absolute_time - c.negOffsetDur - d - st.render_delay / 1000
        ≤ time.absolute_time - c.negOffsetDur - d) := by
  have hD : c.scaledElapsed (a - c.absolute_time) = .ok (a - c.absolute_time) := by
    simp [LocalClock.scaledElapsed, hscale]
  have htick := tick_fixed_eq c time a (a - c.absolute_time) d hadj hge hD htpf hd
  have hsub' := hsub
  unfold LocalClock.negOffsetDur at hsub'
  have hcs2 : checkedSub time.absolute_time
      ((wrapU64 (-c.clock_offset_secs) : ℚ) +
        (wrapU32 (-c.clock_offset_nanos) : ℚ) / 1000000000)
      = some (time.absolute_time -
        ((wrapU64 (-c.clock_offset_secs) : ℚ) +
          (wrapU32 (-c.clock_offset_nanos) : ℚ) / 1000000000)) := by
    simp [checkedSub, hsub']
  constructor
  · unfold ServerRateSimulationState.update_render at hres
    simp only [hc, htick, htpf, LocalClock.negOffsetDur, hcs2] at hres
    have h := Except.ok.inj hres
    cases h
    unfold LocalClock.negOffsetDur
    rfl
  · intro h0
    rw [h0]
    norm_num

/-- C4 witness: on `srsSample` at local time 1/2 no new frame elapses, the
buffer spans `[-1, 0]`, the sampling time is `-1/2`, and the returned sample
is the linear interpolation `3/2` of the two keyframes. -/
theorem C4_render_delay_sampling_witness :
    (some { pos := ⟨3 / 2, 0⟩ } : Option Sample)
      = (Spline.sample idOps.lerp srsSampled.interpolation_buffer
          (timeHalf.absolute_time - clockRender.negOffsetDur - 1
            - srsSample.render_delay / 1000)).map
        (idOps.pos_sample srsSampled.client_sim) ∧
    (srsSample.render_delay = 0 →
      timeHalf.absolute_time - clockRender.negOffsetDur - 1
          - srsSample.render_delay / 1000
        ≤ timeHalf.absolute_time - clockRender.negOffsetDur - 1) :=
  C4_render_delay_sampling idOps srsSample timeHalf clockRender (1 / 2) 1
    srsSampled (some { pos := ⟨3 / 2, 0⟩ }) rfl
    (by norm_num [LocalClock.adjustedTime, LocalClock.posOffsetDur, clockRender,
      timeHalf, LocalClock.default])
    (by norm_num [clockRender, LocalClock.default]) rfl rfl (by norm_num)
    (by norm_num [LocalClock.negOffsetDur, clockRender, timeHalf, LocalClock.default,
      wrapU64, wrapU32])
    (by
      have hfl0 : ⌊((1 : ℚ) / 2) / 1⌋₊ = 0 := natFloor_eval _ 0 (by norm_num) (by norm_num)
      have hD : clockRender.scaledElapsed (1 / 2 - clockRender.absolute_time)
          = .ok (1 / 2) := by
        norm_num [LocalClock.scaledElapsed, clockRender, LocalClock.default]
      have htick := tick_fixed_eq clockRender timeHalf (1 / 2) (1 / 2) 1
        (by norm_num [LocalClock.adjustedTime, LocalClock.posOffsetDur, clockRender,
          timeHalf, LocalClock.default])
        (by norm_num [clockRender, LocalClock.default])
        hD rfl (by norm_num)
      have hfl1 : ⌊(1 / 2 : ℚ)⌋₊ = 0 := natFloor_eval _ 0 (by norm_num) (by norm_num)
      unfold ServerRateSimulationState.update_render
      simp only [show srsSample.clock = some clockRender from rfl, htick]
      norm_num [hfl0, hfl1, srsSample, srsSampled, clockSampled, clockRender, timeHalf,
        LocalClock.default, LocalClock.negOffsetDur, wrapU64, wrapU32, checkedSub,
        Spline.sample, lowerCP, idOps, Sample.mk.injEq, Vec2.mk.injEq])

/-! ## Claim about the simulation driver -/

/-- C9: for a fixed configuration, `run_simulation` seeds its jitter
generator (and both network monkeys) with the constant `[0; 16]`, and any two
invocations that use that fixed per-run seed produce identical output frame
sequences — the same `WorldFrame` list, hence the same number of entries with
the same `side`, `render_time`, `net_time` and `sample` values in the same
order.  The external engine pieces (app stepping, transport, RNG transition)
are modelled as the deterministic components of a `DriverEnv`. -/
theorem C9_run_simulation_deterministic {W R : Type} (env : DriverEnv W R)
    (s : SimSettings) (fuel : ℕ) (seed1 seed2 : List ℕ)
    (h1 : seed1 = zeroSeed) (h2 : seed2 = zeroSeed) :
    runSimulationSeeded env s fuel seed1 = runSimulationSeeded env s fuel seed2 ∧
    run_simulation env s fuel = runSimulationSeeded env s fuel seed1 := by
  subst h1
  subst h2
  exact ⟨rfl, rfl⟩

/-- C9 witness: the trivial environment with the default settings at fuel 3,
both invocations seeded `[0; 16]`. -/
theorem C9_run_simulation_deterministic_witness :
    runSimulationSeeded envTrivial SimSettings.default 3 zeroSeed
      = runSimulationSeeded envTrivial SimSettings.default 3 zeroSeed ∧
    run_simulation envTrivial SimSettings.default 3
      = runSimulationSeeded envTrivial SimSettings.default 3 zeroSeed :=
  C9_run_simulation_deterministic envTrivial SimSettings.default 3 zeroSeed zeroSeed
    rfl rfl

/-- C7 witness: ticking `clockFix` at local time 5/2 advances it to
`clockFixTicked`, and both `frame_number` and `absolute_time` are at least
their previous values. -/
theorem C7_clock_monotonic_witness :
    clockFix.frame_number ≤ clockFixTicked.frame_number ∧
    clockFix.absolute_time ≤ clockFixTicked.absolute_time :=
  C7_clock_monotonic clockFix timeFix clockFixTicked
    (by
      intro d hd
      rw [show clockFix.time_per_frame = some 1 from rfl] at hd
      cases hd
      norm_num)
    (by
      have hfl : ⌊((5 : ℚ) / 2) / 1⌋₊ = 2 := natFloor_eval _ 2 (by norm_num) (by norm_num)
      have hfl2 : ⌊((5 : ℚ) / 2)⌋₊ = 2 := natFloor_eval _ 2 (by norm_num) (by norm_num)
      have htick := tick_fixed_eq clockFix timeFix (5 / 2) (5 / 2) 1
        (by norm_num [LocalClock.adjustedTime, LocalClock.posOffsetDur, clockFix,
          timeFix, LocalClock.default])
        (by norm_num [clockFix, LocalClock.default])
        (by norm_num [LocalClock.scaledElapsed, clockFix, LocalClock.default])
        rfl (by norm_num)
      rw [htick]
      norm_num [hfl, hfl2, clockFixTicked, clockFix, LocalClock.default])
